import Mathlib

/-!
Verification of the Markdown company-table extractor.

The extractor is the function `parse_markdown_table_to_objects` together
with the `CompanyData` model and its two field validators (`split_tags`,
`clean_url`), duplicated verbatim in `camel_markitdown_client.py` and
`streamlit_markitdown_app.py`.

Embedding conventions:
- a Python string is embedded as `List Char` (named `Str` below), so that
  every operation is a structurally recursive, kernel-evaluable function;
- `str.split(c)` for a one-character separator is `splitOnChar`,
  `str.strip()` is `trimChars`, `str.lower()` is `lowerChars`,
  `str.startswith(p)` is `List.isPrefixOf`, `str.endswith(p)` is
  `List.isSuffixOf`, and `str.replace(p, q)` for one-character `p`, `q`
  is a character map;
- the `print`/`logging` calls of the Python code are modelled as an
  explicit diagnostic list (`Diag`), carrying exactly the data the code
  interpolates into the emitted message (the 1-based line number relative
  to the stripped document and the stripped row text); the free-text part
  of the message, including the validation detail produced by the
  validation library, is not modelled;
- the `pydantic` model construction `CompanyData(**row_data)` is embedded
  as `buildCompany` over an association list with last-binding-wins lookup
  (Python dict semantics); construction fails exactly when some field
  fails, which is what the `try/except ValidationError` observes.
-/

set_option maxRecDepth 40000

/-- A Python string, embedded as its list of characters. -/
abbrev Str := List Char

/-- Conversion from a Lean string literal to the embedding. -/
def str (s : String) : Str := s.data

/-- Python `s.split(c)` for a one-character separator `c`: the list of
(possibly empty) segments between occurrences of `c`. -/
def splitOnChar (c : Char) : List Char → List (List Char)
  | [] => [[]]
  | x :: xs =>
    match splitOnChar c xs with
    | [] => [[]]
    | g :: gs => if x = c then [] :: g :: gs else (x :: g) :: gs

/-- Whitespace for `str.strip()` (space, tab, newline, carriage return). -/
def isSpaceChar (c : Char) : Bool := c = ' ' || c = '\t' || c = '\n' || c = '\r'

/-- Python `s.strip()`. -/
def trimChars (s : Str) : Str :=
  ((s.dropWhile isSpaceChar).reverse.dropWhile isSpaceChar).reverse

/-- Python `s.lower()`. -/
def lowerChars (s : Str) : Str := s.map Char.toLower

/-- Python `h.replace(' ', '_')`. -/
def spacesToUnderscores (s : Str) : Str := s.map (fun c => if c = ' ' then '_' else c)

/-- The validated record type: the pydantic model `CompanyData`.  URL
fields are kept as the accepted strings. -/
structure CompanyData where
  Company : Str
  Company_Website : Option Str := none
  YC_Link : Option Str := none
  Short_Description : Str
  Tags : Option (List Str) := none
  Location : Option Str := none
  Founder_Link_1 : Option Str := none
  Founder_Link_2 : Option Str := none
  Founder_Link_3 : Option Str := none
deriving DecidableEq

/-- The field validator `CompanyData.split_tags`, string branch: `"nan"`
(case-insensitive) becomes absent, otherwise the value is split on commas,
each entry trimmed, entries empty after trimming dropped. -/
def split_tags (v : Str) : Option (List Str) :=
  if lowerChars v = str ("nan") then none
  else some (((splitOnChar ',' v).map trimChars).filter (fun t => !t.isEmpty))

/-- The field validator `CompanyData.split_tags`, list branch: each element
trimmed, elements empty after trimming dropped. -/
def split_tags_list (v : List Str) : List Str :=
  (v.map trimChars).filter (fun t => !t.isEmpty)

/-- The field validator `CompanyData.clean_url`: a value whose stripped
form is `"nan"` (case-insensitive) or empty becomes `None`; any other
string is passed through unchanged to the URL type validation. -/
def clean_url (v : Str) : Option Str :=
  let s := trimChars v
  if lowerChars s = str ("nan") || s.isEmpty then none else some v

/-- Modelled from the spec: "URL fields, when present, must be
syntactically valid absolute URLs".  The actual check is performed by the
external validation library type `HttpUrl`, which is not part of this
repository; we model syntactic validity of an absolute URL as an `http://`
or `https://` scheme followed by a nonempty remainder containing no space. -/
def isValidHttpUrl (s : Str) : Bool :=
  if (str ("https://")).isPrefixOf s then
    !(s.drop 8).isEmpty && !(s.drop 8).contains ' '
  else if (str ("http://")).isPrefixOf s then
    !(s.drop 7).isEmpty && !(s.drop 7).contains ' '
  else false

/-- The `row_data` dictionary handed to the model: field name to value,
where the value is `none` when the cell was the `nan` sentinel. -/
abbrev Row := List (Str × Option Str)

/-- Dictionary lookup.  The Python dict is filled left to right with
assignment, so a duplicate key keeps its last binding; hence the reversed
search. -/
def lookupField (row : Row) (name : Str) : Option (Option Str) :=
  (row.reverse.find? (fun p => decide (p.1 = name))).map Prod.snd

/-- Extraction of a required `str` field: absent key or `None` value is a
validation failure; any string, including the empty one, is accepted. -/
def getStr (row : Row) (name : Str) : Except String Str :=
  match lookupField row name with
  | none => .error ("Field required")
  | some none => .error ("Input should be a valid string")
  | some (some s) => .ok s

/-- Extraction of an `Optional[HttpUrl]` field: absent or `None` is fine;
a string value goes through `clean_url` and then the URL type check. -/
def getUrl (row : Row) (name : Str) : Except String (Option Str) :=
  match lookupField row name with
  | none => .ok none
  | some none => .ok none
  | some (some s) =>
    match clean_url s with
    | none => .ok none
    | some u => if isValidHttpUrl u then .ok (some u) else .error ("Input should be a valid URL")

/-- Extraction of the `Optional[List[str]]` field `Tags` through
`split_tags`; it never fails on a string or absent input. -/
def getTags (row : Row) : Option (List Str) :=
  match lookupField row (str ("Tags")) with
  | none => none
  | some none => none
  | some (some s) => split_tags s

/-- Extraction of the `Optional[str]` field `Location`: no validator is
attached to it, so a present string — the empty string included — is kept
as is. -/
def getOptStr (row : Row) (name : Str) : Option Str :=
  match lookupField row name with
  | none => none
  | some none => none
  | some (some s) => some s

/-- Construction `CompanyData(**row_data)`: succeeds iff every field
accepts its value (the library collects the failures of all fields; only
success versus failure is observed by the caller, through the
`try/except ValidationError`). -/
def buildCompany (row : Row) : Except String CompanyData :=
  match getStr row (str ("Company")) with
  | .error e => .error e
  | .ok company =>
    match getUrl row (str ("Company_Website")) with
    | .error e => .error e
    | .ok website =>
      match getUrl row (str ("YC_Link")) with
      | .error e => .error e
      | .ok yc =>
        match getStr row (str ("Short_Description")) with
        | .error e => .error e
        | .ok desc =>
          match getUrl row (str ("Founder_Link_1")) with
          | .error e => .error e
          | .ok f1 =>
            match getUrl row (str ("Founder_Link_2")) with
            | .error e => .error e
            | .ok f2 =>
              match getUrl row (str ("Founder_Link_3")) with
              | .error e => .error e
              | .ok f3 =>
                .ok (CompanyData.mk company website yc desc (getTags row)
                  (getOptStr row (str ("Location"))) f1 f2 f3)

/-- The diagnostics the parser emits (via `print`/`logging` in the code),
carrying the data interpolated into the message. -/
inductive Diag where
  | tableNotFound
  | separatorMissing
  | columnCountMismatch (lineNo : Nat) (rowText : Str)
  | rowValidationFailed (lineNo : Nat) (rowText : Str)
deriving DecidableEq

/-- What the row loop does with one line, before the line number is
attached to a diagnostic. -/
inductive RowResult where
  | skipped
  | mismatch (rowText : Str)
  | failed (rowText : Str)
  | ok (c : CompanyData)
deriving DecidableEq

/-- The per-cell sentinel mapping: the value, unless it lowercases to
the sentinel "nan", in which case `None`. -/
def mapNan (v : Str) : Option Str :=
  if lowerChars v = str ("nan") then none else some v

/-- Cell values of a data row: split on the pipe, drop the first and last
segments, strip each value. -/
def rowCells (s : Str) : List Str :=
  (((splitOnChar '|' s).drop 1).dropLast).map trimChars

/-- Column names from the header line: split on the pipe, drop the first
and last segments, strip each name and replace its spaces by underscores. -/
def headerCells (line : Str) : List Str :=
  (((splitOnChar '|' line).drop 1).dropLast).map (fun h => spacesToUnderscores (trimChars h))

/-- One iteration of the row loop on one line under a fixed header. -/
def processRow (header : List Str) (line : Str) : RowResult :=
  if !((str ("|")).isPrefixOf (trimChars line) && (str ("|")).isSuffixOf (trimChars line)) then
    .skipped
  else if (rowCells (trimChars line)).length ≠ header.length then .mismatch (trimChars line)
  else
    match buildCompany (header.zip ((rowCells (trimChars line)).map mapNan)) with
    | .ok c => .ok c
    | .error _ => .failed (trimChars line)

/-- The row loop over the lines after the separator; `n` is the 1-based
line number (relative to the stripped document) of the first listed line. -/
def processRows (header : List Str) : Nat → List Str → List CompanyData × List Diag
  | _, [] => ([], [])
  | n, l :: ls =>
    let rest := processRows header (n + 1) ls
    match processRow header l with
    | .skipped => rest
    | .mismatch t => (rest.1, .columnCountMismatch n t :: rest.2)
    | .failed t => (rest.1, .rowValidationFailed n t :: rest.2)
    | .ok c => (c :: rest.1, rest.2)

/-- The header detection predicate: the trimmed line starts with the
11-character marker. -/
def isHeaderLine (l : Str) : Bool := (str ("| Company |")).isPrefixOf (trimChars l)

/-- The header scan loop from index `i`: first matching line wins. -/
def findHeaderFrom : Nat → List Str → Option Nat
  | _, [] => none
  | i, l :: ls => if isHeaderLine l then some i else findHeaderFrom (i + 1) ls

/-- Index of the first line whose trimmed content starts with the marker. -/
def findHeader (ls : List Str) : Option Nat := findHeaderFrom 0 ls

/-- The line list the parser works on: the stripped document, split on
newlines. -/
def docLines (content : Str) : List Str := splitOnChar '\n' (trimChars content)

/-- The extractor `parse_markdown_table_to_objects`, returning the record
list together with the diagnostics it emits. -/
def parse_markdown_table_to_objects (content : Str) : List CompanyData × List Diag :=
  match findHeader (docLines content) with
  | none => ([], [.tableNotFound])
  | some i =>
    if i + 1 < (docLines content).length then
      if (str ("| ---")).isPrefixOf (trimChars ((docLines content).getD (i + 1) [])) then
        processRows (headerCells ((docLines content).getD i []))
          (i + 3) ((docLines content).drop (i + 2))
      else ([], [.separatorMissing])
    else ([], [.separatorMissing])

/-- Success test for an `Except` result. -/
def exceptOk {ε α : Type} : Except ε α → Bool
  | .ok _ => true
  | .error _ => false

/-- The value of an `Except` result, when it succeeded. -/
def exceptValue {ε α : Type} : Except ε α → Option α
  | .ok a => some a
  | .error _ => none

/-- The record a single line contributes under a fixed header, independent
of its position in the document. -/
def rowRecord (header : List Str) (line : Str) : Option CompanyData :=
  match processRow header line with
  | .ok c => some c
  | _ => none

/-- The rejection a single line provokes under a fixed header, with the
line number field normalized to zero. -/
def rowReject (header : List Str) (line : Str) : Option Diag :=
  match processRow header line with
  | .mismatch t => some (.columnCountMismatch 0 t)
  | .failed t => some (.rowValidationFailed 0 t)
  | _ => none

/-- Forget the line number carried by a per-row diagnostic. -/
def eraseLineNo : Diag → Diag
  | .columnCountMismatch _ t => .columnCountMismatch 0 t
  | .rowValidationFailed _ t => .rowValidationFailed 0 t
  | d => d

theorem processRows_append (header : List Str) (n : Nat) (xs ys : List Str) :
    processRows header n (xs ++ ys)
      = ((processRows header n xs).1 ++ (processRows header (n + xs.length) ys).1,
         (processRows header n xs).2 ++ (processRows header (n + xs.length) ys).2) := by
  induction xs generalizing n with
  | nil => simp [processRows]
  | cons x xs ih =>
    have harith : n + (x :: xs).length = (n + 1) + xs.length := by
      simp [List.length_cons]
      omega
    rw [List.cons_append]
    show processRows header n (x :: (xs ++ ys)) = _
    simp only [processRows, ih (n + 1), harith]
    cases processRow header x <;> simp

theorem processRows_records (header : List Str) (n : Nat) (rows : List Str) :
    (processRows header n rows).1 = rows.filterMap (rowRecord header) := by
  induction rows generalizing n with
  | nil => simp [processRows]
  | cons l ls ih =>
    simp only [processRows, List.filterMap_cons, rowRecord]
    cases processRow header l <;> simp [ih]

theorem processRows_diags (header : List Str) (n : Nat) (rows : List Str) :
    (processRows header n rows).2.map eraseLineNo = rows.filterMap (rowReject header) := by
  induction rows generalizing n with
  | nil => simp [processRows]
  | cons l ls ih =>
    simp only [processRows, List.filterMap_cons, rowReject]
    cases processRow header l <;> simp [ih, eraseLineNo]

theorem lookupField_append_right (xs ys : Row) (name : Str)
    (h : ∀ q ∈ ys, q.1 ≠ name) :
    lookupField (xs ++ ys) name = lookupField xs name := by
  unfold lookupField
  rw [List.reverse_append, List.find?_append]
  have hn : ys.reverse.find? (fun p => decide (p.1 = name)) = none := by
    rw [List.find?_eq_none]
    intro x hx
    simp only [decide_eq_true_eq]
    exact h x (List.mem_reverse.mp hx)
  rw [hn]
  simp [Option.orElse]

theorem lookupField_middle (pre suf : Row) (name : Str) (x : Option Str)
    (hs : ∀ q ∈ suf, q.1 ≠ name) :
    lookupField (pre ++ (name, x) :: suf) name = some x := by
  unfold lookupField
  rw [List.reverse_append, List.reverse_cons, List.find?_append, List.find?_append]
  have hn : suf.reverse.find? (fun p => decide (p.1 = name)) = none := by
    rw [List.find?_eq_none]
    intro q hq
    simp only [decide_eq_true_eq]
    exact hs q (List.mem_reverse.mp hq)
  have hone : List.find? (fun p => decide (p.1 = name)) [(name, x)] = some (name, x) := by
    simp [List.find?]
  rw [hn, hone]
  simp [Option.orElse]

theorem lookupField_middle_other (pre suf : Row) (name m : Str) (x : Option Str)
    (hm : name ≠ m) :
    lookupField (pre ++ (name, x) :: suf) m = lookupField (pre ++ suf) m := by
  unfold lookupField
  rw [List.reverse_append, List.reverse_cons, List.reverse_append,
    List.find?_append, List.find?_append, List.find?_append]
  have hone : List.find? (fun p => decide (p.1 = m)) [(name, x)] = none := by
    simp [List.find?, hm]
  rw [hone]
  cases suf.reverse.find? (fun p => decide (p.1 = m)) <;> simp [Option.orElse]

theorem getStr_of_present (row : Row) (name s : Str)
    (h : lookupField row name = some (some s)) : getStr row name = .ok s := by
  simp [getStr, h]

theorem getStr_of_null (row : Row) (name : Str)
    (h : lookupField row name = some none) :
    getStr row name = .error ("Input should be a valid string") := by
  simp [getStr, h]

theorem getStr_of_absent (row : Row) (name : Str)
    (h : lookupField row name = none) :
    getStr row name = .error ("Field required") := by
  simp [getStr, h]

theorem getUrl_of_null (row : Row) (name : Str)
    (h : lookupField row name = some none) : getUrl row name = .ok none := by
  simp [getUrl, h]

theorem getUrl_of_absent (row : Row) (name : Str)
    (h : lookupField row name = none) : getUrl row name = .ok none := by
  simp [getUrl, h]

theorem clean_url_keeps (v : Str) (h1 : trimChars v ≠ [])
    (h2 : lowerChars (trimChars v) ≠ str ("nan")) : clean_url v = some v := by
  have he : (trimChars v).isEmpty = false := by
    cases hv : trimChars v with
    | nil => exact absurd hv h1
    | cons a l => rfl
  simp [clean_url, he, h2]

theorem getUrl_of_invalid (row : Row) (name v : Str)
    (h : lookupField row name = some (some v))
    (h1 : trimChars v ≠ []) (h2 : lowerChars (trimChars v) ≠ str ("nan"))
    (h3 : isValidHttpUrl v = false) :
    getUrl row name = .error ("Input should be a valid URL") := by
  simp [getUrl, h, clean_url_keeps v h1 h2, h3]

theorem getTags_of_null (row : Row)
    (h : lookupField row (str ("Tags")) = some none) : getTags row = none := by
  simp [getTags, h]

theorem getTags_of_absent (row : Row)
    (h : lookupField row (str ("Tags")) = none) : getTags row = none := by
  simp [getTags, h]

theorem getOptStr_of_present (row : Row) (name s : Str)
    (h : lookupField row name = some (some s)) : getOptStr row name = some s := by
  simp [getOptStr, h]

theorem getOptStr_of_null (row : Row) (name : Str)
    (h : lookupField row name = some none) : getOptStr row name = none := by
  simp [getOptStr, h]

theorem getOptStr_of_absent (row : Row) (name : Str)
    (h : lookupField row name = none) : getOptStr row name = none := by
  simp [getOptStr, h]

theorem getStr_congr (r1 r2 : Row) (name : Str)
    (h : lookupField r1 name = lookupField r2 name) : getStr r1 name = getStr r2 name := by
  unfold getStr
  rw [h]

theorem getUrl_congr (r1 r2 : Row) (name : Str)
    (h : lookupField r1 name = lookupField r2 name) : getUrl r1 name = getUrl r2 name := by
  unfold getUrl
  rw [h]

theorem getTags_congr (r1 r2 : Row)
    (h : lookupField r1 (str ("Tags")) = lookupField r2 (str ("Tags"))) :
    getTags r1 = getTags r2 := by
  unfold getTags
  rw [h]

theorem getOptStr_congr (r1 r2 : Row) (name : Str)
    (h : lookupField r1 name = lookupField r2 name) :
    getOptStr r1 name = getOptStr r2 name := by
  unfold getOptStr
  rw [h]

theorem buildCompany_congr (r1 r2 : Row)
    (h1 : getStr r1 (str ("Company")) = getStr r2 (str ("Company")))
    (h2 : getUrl r1 (str ("Company_Website")) = getUrl r2 (str ("Company_Website")))
    (h3 : getUrl r1 (str ("YC_Link")) = getUrl r2 (str ("YC_Link")))
    (h4 : getStr r1 (str ("Short_Description")) = getStr r2 (str ("Short_Description")))
    (h5 : getTags r1 = getTags r2)
    (h6 : getOptStr r1 (str ("Location")) = getOptStr r2 (str ("Location")))
    (h7 : getUrl r1 (str ("Founder_Link_1")) = getUrl r2 (str ("Founder_Link_1")))
    (h8 : getUrl r1 (str ("Founder_Link_2")) = getUrl r2 (str ("Founder_Link_2")))
    (h9 : getUrl r1 (str ("Founder_Link_3")) = getUrl r2 (str ("Founder_Link_3"))) :
    buildCompany r1 = buildCompany r2 := by
  unfold buildCompany
  rw [h1, h2, h3, h4, h5, h6, h7, h8, h9]

theorem buildCompany_isOk (row : Row) :
    exceptOk (buildCompany row)
      = (exceptOk (getStr row (str ("Company")))
          && exceptOk (getUrl row (str ("Company_Website")))
          && exceptOk (getUrl row (str ("YC_Link")))
          && exceptOk (getStr row (str ("Short_Description")))
          && exceptOk (getUrl row (str ("Founder_Link_1")))
          && exceptOk (getUrl row (str ("Founder_Link_2")))
          && exceptOk (getUrl row (str ("Founder_Link_3")))) := by
  unfold buildCompany
  cases getStr row (str ("Company")) <;> cases getUrl row (str ("Company_Website")) <;>
    cases getUrl row (str ("YC_Link")) <;> cases getStr row (str ("Short_Description")) <;>
    cases getUrl row (str ("Founder_Link_1")) <;> cases getUrl row (str ("Founder_Link_2")) <;>
    cases getUrl row (str ("Founder_Link_3")) <;> rfl

theorem exceptValue_eq_none_iff {ε α : Type} (e : Except ε α) :
    exceptValue e = none ↔ exceptOk e = false := by
  cases e <;> simp [exceptValue, exceptOk]

theorem buildCompany_location (row : Row) (c : CompanyData)
    (hb : buildCompany row = .ok c) :
    c.Location = getOptStr row (str ("Location")) := by
  unfold buildCompany at hb
  repeat' split at hb
  all_goals (try (cases hb))
  rfl

theorem findHeaderFrom_none (ls : List Str) (i : Nat)
    (h : ∀ l ∈ ls, isHeaderLine l = false) : findHeaderFrom i ls = none := by
  induction ls generalizing i with
  | nil => rfl
  | cons l ls ih =>
    simp only [findHeaderFrom, h l (List.mem_cons_self l ls), Bool.false_eq_true, if_false]
    exact ih (i + 1) (fun x hx => h x (List.mem_cons_of_mem l hx))

theorem findHeader_none (ls : List Str)
    (h : ∀ l ∈ ls, isHeaderLine l = false) : findHeader ls = none :=
  findHeaderFrom_none ls 0 h

theorem findHeaderFrom_first (ls : List Str) (k i : Nat)
    (h : findHeaderFrom k ls = some i) :
    k ≤ i ∧ i - k < ls.length ∧ isHeaderLine (ls.getD (i - k) []) = true
      ∧ ∀ j, j < i - k → isHeaderLine (ls.getD j []) = false := by
  induction ls generalizing k with
  | nil => simp [findHeaderFrom] at h
  | cons l ls ih =>
    by_cases hl : isHeaderLine l
    · have hk : k = i := by
        simpa [findHeaderFrom, hl] using h
      subst hk
      refine ⟨Nat.le_refl _, by simp, ?_, ?_⟩
      · simpa [Nat.sub_self] using hl
      · intro j hj
        omega
    · have h2 : findHeaderFrom (k + 1) ls = some i := by
        simpa [findHeaderFrom, hl] using h
      obtain ⟨hk1, hlen, hhit, hbefore⟩ := ih (k + 1) h2
      have hki : k ≤ i := by omega
      have hik : i - k = (i - (k + 1)) + 1 := by omega
      refine ⟨hki, ?_, ?_, ?_⟩
      · rw [hik, List.length_cons]
        omega
      · rw [hik]
        simpa using hhit
      · intro j hj
        cases j with
        | zero => simpa using hl
        | succ j =>
          rw [List.getD_cons_succ]
          exact hbefore j (by omega)

theorem findHeader_first (ls : List Str) (i : Nat) (h : findHeader ls = some i) :
    i < ls.length ∧ isHeaderLine (ls.getD i []) = true
      ∧ ∀ j, j < i → isHeaderLine (ls.getD j []) = false := by
  obtain ⟨_, hlen, hhit, hbefore⟩ := findHeaderFrom_first ls 0 i h
  rw [Nat.sub_zero] at hlen hhit hbefore
  exact ⟨hlen, hhit, hbefore⟩

theorem parse_no_header (content : Str)
    (h : ∀ l ∈ docLines content, isHeaderLine l = false) :
    parse_markdown_table_to_objects content = ([], [Diag.tableNotFound]) := by
  unfold parse_markdown_table_to_objects
  rw [findHeader_none _ h]

theorem parse_sep_missing (content : Str) (i : Nat)
    (hf : findHeader (docLines content) = some i)
    (hs : (str ("| ---")).isPrefixOf (trimChars ((docLines content).getD (i + 1) [])) = false) :
    parse_markdown_table_to_objects content = ([], [Diag.separatorMissing]) := by
  unfold parse_markdown_table_to_objects
  rw [hf]
  dsimp only
  by_cases hlt : i + 1 < (docLines content).length
  · rw [if_pos hlt, if_neg]
    intro hc
    rw [hs] at hc
    exact Bool.false_ne_true hc
  · rw [if_neg hlt]

theorem parse_table (content : Str) (i : Nat)
    (hf : findHeader (docLines content) = some i)
    (hlt : i + 1 < (docLines content).length)
    (hs : (str ("| ---")).isPrefixOf (trimChars ((docLines content).getD (i + 1) [])) = true) :
    parse_markdown_table_to_objects content
      = processRows (headerCells ((docLines content).getD i []))
          (i + 3) ((docLines content).drop (i + 2)) := by
  unfold parse_markdown_table_to_objects
  rw [hf]
  dsimp only
  rw [if_pos hlt, if_pos hs]

theorem filterMap_cons_toList {α β : Type} (f : α → Option β) (a : α) (l : List α) :
    (a :: l).filterMap f = (f a).toList ++ l.filterMap f := by
  cases h : f a <;> simp [List.filterMap_cons, h]

/-- Claim C2: for every input string in which no line of the document has
trimmed content beginning with the 11-character marker `| Company |`,
extraction returns an empty record list together with a single diagnostic
of kind `TableNotFound`, and raises no error (the extractor is a total
function returning exactly this value). -/
theorem no_header_yields_tableNotFound (content : Str)
    (h : ∀ l ∈ docLines content, isHeaderLine l = false) :
    parse_markdown_table_to_objects content = ([], [Diag.tableNotFound]) :=
  parse_no_header content h

/-- Witness for C2 at a concrete header-free document. -/
theorem no_header_yields_tableNotFound_witness :
    parse_markdown_table_to_objects (str ("hello\nworld")) = ([], [Diag.tableNotFound]) :=
  no_header_yields_tableNotFound (str ("hello\nworld")) (by decide)

/-- Claim C3: whenever a header line is located but the immediately
following line is missing or its trimmed content does not begin with
`| ---`, extraction returns zero records with a `SeparatorMissing`
diagnostic, with no recovery and no error.  A missing following line is
covered because the default line is empty, for which the prefix test is
false. -/
theorem missing_separator_yields_separatorMissing (content : Str) (i : Nat)
    (hf : findHeader (docLines content) = some i)
    (hs : (str ("| ---")).isPrefixOf (trimChars ((docLines content).getD (i + 1) [])) = false) :
    parse_markdown_table_to_objects content = ([], [Diag.separatorMissing]) :=
  parse_sep_missing content i hf hs

/-- Witness for C3 at a concrete document whose header is followed by a
non-separator line. -/
theorem missing_separator_yields_separatorMissing_witness :
    parse_markdown_table_to_objects (str ("| Company | A |\nno separator here"))
      = ([], [Diag.separatorMissing]) :=
  missing_separator_yields_separatorMissing (str ("| Company | A |\nno separator here")) 0
    (by decide) (by decide)

/-- Claim C6: the Tags cell `"ai, fintech , saas"` normalizes to the
ordered list `["ai", "fintech", "saas"]`; a `"nan"` value (any letter
case) yields absent tags; any other string is split on commas with each
entry trimmed and entries empty after trimming dropped; an input that is
already a list passes through with each element trimmed and empty
elements dropped. -/
theorem tag_splitting_normalization :
    split_tags (str ("ai, fintech , saas")) = some [str ("ai"), str ("fintech"), str ("saas")]
  ∧ (∀ v : Str, lowerChars v = str ("nan") → split_tags v = none)
  ∧ (∀ v : Str, lowerChars v ≠ str ("nan") →
      split_tags v = some (((splitOnChar ',' v).map trimChars).filter (fun t => !t.isEmpty)))
  ∧ ∀ l : List Str, split_tags_list l = (l.map trimChars).filter (fun t => !t.isEmpty) := by
  refine ⟨by decide, ?_, ?_, fun l => rfl⟩
  · intro v hv
    simp [split_tags, hv]
  · intro v hv
    simp [split_tags, hv]

/-- Witness for C6: the sentinel case at the mixed-case value `"NaN"`. -/
theorem tag_splitting_normalization_witness :
    split_tags (str ("NaN")) = none :=
  tag_splitting_normalization.2.1 (str ("NaN")) (by decide)

/-- Claim C9: row independence.  Under a fixed header, the record a line
contributes and the rejection it provokes are functions of that line
alone (`rowRecord`, `rowReject`); the row loop over any surrounding rows
decomposes pointwise, so removing row N or replacing it by a corrupted
line leaves the outcome of every other row unchanged (diagnostics
compared up to the carried line number, which renumbers when lines are
removed). -/
theorem row_independence (header : List Str) (n : Nat) (pre suf : List Str) (r rC : Str) :
    (processRows header n (pre ++ r :: suf)).1
        = pre.filterMap (rowRecord header) ++ (rowRecord header r).toList
            ++ suf.filterMap (rowRecord header)
  ∧ (processRows header n (pre ++ suf)).1
        = pre.filterMap (rowRecord header) ++ suf.filterMap (rowRecord header)
  ∧ (processRows header n (pre ++ rC :: suf)).1
        = pre.filterMap (rowRecord header) ++ (rowRecord header rC).toList
            ++ suf.filterMap (rowRecord header)
  ∧ (processRows header n (pre ++ r :: suf)).2.map eraseLineNo
        = pre.filterMap (rowReject header) ++ (rowReject header r).toList
            ++ suf.filterMap (rowReject header)
  ∧ (processRows header n (pre ++ suf)).2.map eraseLineNo
        = pre.filterMap (rowReject header) ++ suf.filterMap (rowReject header)
  ∧ (processRows header n (pre ++ rC :: suf)).2.map eraseLineNo
        = pre.filterMap (rowReject header) ++ (rowReject header rC).toList
            ++ suf.filterMap (rowReject header) := by
  refine ⟨?_, ?_, ?_, ?_, ?_, ?_⟩ <;>
    simp [processRows_records, processRows_diags, List.filterMap_append, filterMap_cons_toList]

/-- Claim C10: a row whose required-field cell is the empty string (not
the nan sentinel) is accepted: the required-field extraction succeeds on
every present string, the empty one included, and a concrete document
whose `Company` and `Short_Description` cells are empty yields a record
whose required fields are the empty string. -/
theorem required_fields_accept_empty :
    (∀ (row : Row) (s : Str), lookupField row (str ("Company")) = some (some s) →
        getStr row (str ("Company")) = .ok s)
  ∧ (∀ (row : Row) (s : Str), lookupField row (str ("Short_Description")) = some (some s) →
        getStr row (str ("Short_Description")) = .ok s)
  ∧ parse_markdown_table_to_objects (str ("| Company | Company Website | YC Link | Short Description | Tags | Location | Founder Link 1 | Founder Link 2 | Founder Link 3 |\n| --- | --- | --- | --- | --- | --- | --- | --- | --- |\n|  | nan | nan |  | nan | nan | nan | nan | nan |"))
      = ([CompanyData.mk [] none none [] none none none none none], []) := by
  refine ⟨?_, ?_, by decide⟩
  · intro row s h
    exact getStr_of_present row _ s h
  · intro row s h
    exact getStr_of_present row _ s h

/-- Witness for C10: the required-field extraction at an explicit row
whose `Company` value is the empty string. -/
theorem required_fields_accept_empty_witness :
    getStr [(str ("Company"), some ([] : Str))] (str ("Company")) = .ok [] :=
  required_fields_accept_empty.1 [(str ("Company"), some [])] [] (by decide)

theorem processRow_mismatch_of (header : List Str) (r : Str)
    (h1 : (str ("|")).isPrefixOf (trimChars r) = true)
    (h2 : (str ("|")).isSuffixOf (trimChars r) = true)
    (hne : (rowCells (trimChars r)).length ≠ header.length) :
    processRow header r = .mismatch (trimChars r) := by
  unfold processRow
  rw [h1, h2]
  rw [if_neg (by simp), if_pos hne]

theorem processRows_one_mismatch (header : List Str) (n : Nat) (pre suf : List Str) (r : Str)
    (hrow : processRow header r = .mismatch (trimChars r)) :
    processRows header n (pre ++ r :: suf)
      = ((processRows header n pre).1 ++ (processRows header (n + pre.length + 1) suf).1,
         (processRows header n pre).2
           ++ Diag.columnCountMismatch (n + pre.length) (trimChars r)
             :: (processRows header (n + pre.length + 1) suf).2) := by
  rw [processRows_append]
  have hcons : processRows header (n + pre.length) (r :: suf)
      = ((processRows header (n + pre.length + 1) suf).1,
         Diag.columnCountMismatch (n + pre.length) (trimChars r)
           :: (processRows header (n + pre.length + 1) suf).2) := by
    simp only [processRows, hrow]
  rw [hcons]

/-- Claim C4, counterexample: the emitted `ColumnCountMismatch` diagnostic
does not carry the 1-based line number of the raw source nor the raw line
text.  In this document the offending row is raw source line 5 and has a
leading space, but the diagnostic carries line number 3 (the position in
the whitespace-stripped document) and the trimmed row text. -/
theorem mismatch_diag_counterexample :
    parse_markdown_table_to_objects (str ("\n\n| Company | A |\n| --- | --- |\n | x | y | z |"))
        = ([], [Diag.columnCountMismatch 3 (str ("| x | y | z |"))])
  ∧ (splitOnChar '\n' (str ("\n\n| Company | A |\n| --- | --- |\n | x | y | z |"))).getD 4 []
        = str (" | x | y | z |")
  ∧ (splitOnChar '\n' (str ("\n\n| Company | A |\n| --- | --- |\n | x | y | z |"))).length = 5
  ∧ Diag.columnCountMismatch 3 (str ("| x | y | z |"))
        ≠ Diag.columnCountMismatch 5 (str (" | x | y | z |")) :=
  ⟨by decide, by decide, by decide, by decide⟩

/-- Claim C4 as amended: a data row (trimmed content starting and ending
with the pipe) whose value count differs from the column count of the header
produces no record; a `ColumnCountMismatch` diagnostic carrying the
1-based line number within the whitespace-stripped document and the
trimmed row text is emitted; and extraction continues with the subsequent
lines.  The second conjunct places the row loop inside the extractor with
the first data row numbered `i + 3` — that is, 1-based positions in the
stripped document. -/
theorem mismatch_skips_row_and_continues :
    (∀ (header : List Str) (n : Nat) (pre suf : List Str) (r : Str),
        (str ("|")).isPrefixOf (trimChars r) = true →
        (str ("|")).isSuffixOf (trimChars r) = true →
        (rowCells (trimChars r)).length ≠ header.length →
        processRows header n (pre ++ r :: suf)
          = ((processRows header n pre).1 ++ (processRows header (n + pre.length + 1) suf).1,
             (processRows header n pre).2
               ++ Diag.columnCountMismatch (n + pre.length) (trimChars r)
                 :: (processRows header (n + pre.length + 1) suf).2))
  ∧ (∀ (content : Str) (i : Nat),
        findHeader (docLines content) = some i →
        i + 1 < (docLines content).length →
        (str ("| ---")).isPrefixOf (trimChars ((docLines content).getD (i + 1) [])) = true →
        parse_markdown_table_to_objects content
          = processRows (headerCells ((docLines content).getD i []))
              (i + 3) ((docLines content).drop (i + 2))) := by
  constructor
  · intro header n pre suf r h1 h2 hne
    exact processRows_one_mismatch header n pre suf r (processRow_mismatch_of header r h1 h2 hne)
  · intro content i hf hlt hs
    exact parse_table content i hf hlt hs

/-- Witness for the amended C4 at a concrete short-row document. -/
theorem mismatch_skips_row_and_continues_witness :
    processRows [str ("Company"), str ("A")] 3 [str (" | x | y | z |")]
      = ([], [Diag.columnCountMismatch 3 (str ("| x | y | z |"))]) :=
  (mismatch_skips_row_and_continues.1 [str ("Company"), str ("A")] 3 [] []
      (str (" | x | y | z |")) (by decide) (by decide) (by decide)).trans (by decide)

/-- Claim C7, counterexample: a data row whose `Location` cell is the
empty string does not produce an absent location; the constructed record
carries the present empty string.  The claimed behavior (empty location
becomes absent) is false on the code: the location field has no
normalizing validator, only the nan sentinel is mapped to `None` by the
row loop. -/
theorem empty_location_present_counterexample :
    (parse_markdown_table_to_objects (str ("| Company | Company Website | YC Link | Short Description | Tags | Location | Founder Link 1 | Founder Link 2 | Founder Link 3 |\n| --- | --- | --- | --- | --- | --- | --- | --- | --- |\n| Acme | nan | nan | Widgets | nan |  | nan | nan | nan |"))).1.map CompanyData.Location
        = [some []]
  ∧ some ([] : Str) ≠ (none : Option Str) :=
  ⟨by decide, by decide⟩

/-- Claim C7 as amended: a location cell equal to the nan sentinel (any
letter case) yields an absent location, as does an absent location
column; but a present location string — the empty string included — is
kept verbatim in the record, so an empty-after-trimming cell yields a
present empty location, not an absent one. -/
theorem location_normalization :
    (∀ v : Str, lowerChars v = str ("nan") → mapNan v = none)
  ∧ (∀ (row : Row) (c : CompanyData), buildCompany row = .ok c →
        c.Location = getOptStr row (str ("Location")))
  ∧ (∀ (row : Row), lookupField row (str ("Location")) = some none →
        getOptStr row (str ("Location")) = none)
  ∧ (∀ (row : Row), lookupField row (str ("Location")) = none →
        getOptStr row (str ("Location")) = none)
  ∧ (∀ (row : Row) (s : Str), lookupField row (str ("Location")) = some (some s) →
        getOptStr row (str ("Location")) = some s) := by
  refine ⟨?_, ?_, ?_, ?_, ?_⟩
  · intro v hv
    simp [mapNan, hv]
  · intro row c hb
    exact buildCompany_location row c hb
  · intro row h
    exact getOptStr_of_null row _ h
  · intro row h
    exact getOptStr_of_absent row _ h
  · intro row s h
    exact getOptStr_of_present row _ s h

/-- Witness for the amended C7: a concrete accepted row whose location
cell is the empty string keeps the present empty string. -/
theorem location_normalization_witness :
    buildCompany [(str ("Company"), some (str ("A"))),
        (str ("Short_Description"), some (str ("d"))),
        (str ("Location"), some ([] : Str))]
      = Except.ok (CompanyData.mk (str ("A")) none none (str ("d")) none (some []) none none none)
  ∧ (CompanyData.mk (str ("A")) none none (str ("d")) none (some []) none none none).Location
      = getOptStr [(str ("Company"), some (str ("A"))),
          (str ("Short_Description"), some (str ("d"))),
          (str ("Location"), some ([] : Str))] (str ("Location")) :=
  ⟨by rfl,
   location_normalization.2.1 [(str ("Company"), some (str ("A"))),
      (str ("Short_Description"), some (str ("d"))),
      (str ("Location"), some ([] : Str))]
    (CompanyData.mk (str ("A")) none none (str ("d")) none (some []) none none none) (by rfl)⟩

/-- The two-table document used to settle claim C8: two identically
shaped company tables separated by a blank line, with one data row each. -/
def docTwoTables : Str := str ("| Company | Company Website | YC Link | Short Description | Tags | Location | Founder Link 1 | Founder Link 2 | Founder Link 3 |\n| --- | --- | --- | --- | --- | --- | --- | --- | --- |\n| Acme | nan | nan | a | nan | nan | nan | nan | nan |\n\n| Company | Company Website | YC Link | Short Description | Tags | Location | Founder Link 1 | Founder Link 2 | Founder Link 3 |\n| --- | --- | --- | --- | --- | --- | --- | --- | --- |\n| Bravo | nan | nan | b | nan | nan | nan | nan | nan |")

/-- Claim C8, counterexample: a subsequent similarly-shaped table is not
ignored.  Its data row is parsed under the schema of the first table and
produces a second record, and its header and separator lines are
processed as data rows and rejected with `RowValidationFailed`
diagnostics (at stripped-document lines 5 and 6), so the second table
both contributes a record and contributes diagnostics. -/
theorem second_table_contributes_counterexample :
    (parse_markdown_table_to_objects docTwoTables).1.map CompanyData.Company
        = [str ("Acme"), str ("Bravo")]
  ∧ (parse_markdown_table_to_objects docTwoTables).2
        = [Diag.rowValidationFailed 5 (str ("| Company | Company Website | YC Link | Short Description | Tags | Location | Founder Link 1 | Founder Link 2 | Founder Link 3 |")),
           Diag.rowValidationFailed 6 (str ("| --- | --- | --- | --- | --- | --- | --- | --- | --- |"))] :=
  ⟨by decide, by decide⟩

/-- Claim C8 as amended: only the first line whose trimmed content begins
with the marker defines the column schema — the header scan returns the
index of the first such line, every earlier line failing the test — and a
subsequent similarly-shaped table never redefines the schema; but that
lines of that later table are still consumed by the row loop of the first
table: its header and separator rows fail validation and its data rows
may produce records under the first schema. -/
theorem first_header_defines_schema :
    (∀ (ls : List Str) (i : Nat), findHeader ls = some i →
        i < ls.length ∧ isHeaderLine (ls.getD i []) = true
          ∧ ∀ j, j < i → isHeaderLine (ls.getD j []) = false)
  ∧ findHeader (docLines docTwoTables) = some 0
  ∧ (parse_markdown_table_to_objects docTwoTables).1.map CompanyData.Company
        = [str ("Acme"), str ("Bravo")] := by
  refine ⟨?_, by decide, by decide⟩
  intro ls i h
  exact findHeader_first ls i h

/-- Witness for the amended C8 at the two-table document. -/
theorem first_header_defines_schema_witness :
    0 < (docLines docTwoTables).length
  ∧ isHeaderLine ((docLines docTwoTables).getD 0 []) = true :=
  ⟨(first_header_defines_schema.1 (docLines docTwoTables) 0 (by decide)).1,
   (first_header_defines_schema.1 (docLines docTwoTables) 0 (by decide)).2.1⟩

theorem lookupField_absent (row : Row) (name : Str)
    (h : ∀ q ∈ row, q.1 ≠ name) : lookupField row name = none := by
  unfold lookupField
  have hn : row.reverse.find? (fun p => decide (p.1 = name)) = none := by
    rw [List.find?_eq_none]
    intro q hq
    simp only [decide_eq_true_eq]
    exact h q (List.mem_reverse.mp hq)
  rw [hn]
  rfl

theorem rowRecord_of_failed (header : List Str) (r : Str)
    (h : processRow header r = .failed (trimChars r)) :
    rowRecord header r = none := by
  simp [rowRecord, h]

/-- Claim C1: a present URL-field value that is not a syntactically valid
absolute URL causes row rejection.  First conjunct: whenever one of the
five URL fields holds a string that survives `clean_url` (nonempty and
not the nan sentinel after stripping) but fails the URL syntax check, the
record construction fails, so no record exists.  Second conjunct: such a
value is not coerced to absent by `clean_url`.  Third conjunct: in the
row loop such a failing data row becomes a `RowValidationFailed`
rejection carrying the trimmed row text.  Fourth conjunct: the records of
every other row of the document are produced exactly as they would be
otherwise, and the extraction returns this value rather than failing. -/
theorem invalid_url_rejects_row :
    (∀ (row : Row) (name v : Str),
        (name = str ("Company_Website") ∨ name = str ("YC_Link")
          ∨ name = str ("Founder_Link_1") ∨ name = str ("Founder_Link_2")
          ∨ name = str ("Founder_Link_3")) →
        lookupField row name = some (some v) →
        trimChars v ≠ [] → lowerChars (trimChars v) ≠ str ("nan") →
        isValidHttpUrl v = false →
        exceptValue (buildCompany row) = none)
  ∧ (∀ v : Str, trimChars v ≠ [] → lowerChars (trimChars v) ≠ str ("nan") →
        clean_url v = some v)
  ∧ (∀ (header : List Str) (line : Str),
        (str ("|")).isPrefixOf (trimChars line) = true →
        (str ("|")).isSuffixOf (trimChars line) = true →
        (rowCells (trimChars line)).length = header.length →
        exceptValue (buildCompany (header.zip ((rowCells (trimChars line)).map mapNan))) = none →
        processRow header line = .failed (trimChars line))
  ∧ (∀ (header : List Str) (n : Nat) (pre suf : List Str) (r : Str),
        processRow header r = .failed (trimChars r) →
        (processRows header n (pre ++ r :: suf)).1
          = pre.filterMap (rowRecord header) ++ suf.filterMap (rowRecord header)) := by
  refine ⟨?_, ?_, ?_, ?_⟩
  · intro row name v hmem hlk h1 h2 h3
    rcases hmem with rfl | rfl | rfl | rfl | rfl <;>
      (rw [exceptValue_eq_none_iff, buildCompany_isOk,
          getUrl_of_invalid row _ v hlk h1 h2 h3]; simp [exceptOk])
  · intro v h1 h2
    exact clean_url_keeps v h1 h2
  · intro header line h1 h2 hlen hfail
    unfold processRow
    rw [h1, h2]
    rw [if_neg (by simp), if_neg (by simp [hlen])]
    cases hb : buildCompany (header.zip ((rowCells (trimChars line)).map mapNan)) with
    | ok c =>
      rw [hb] at hfail
      simp [exceptValue] at hfail
    | error e => rfl
  · intro header n pre suf r hr
    rw [processRows_records, List.filterMap_append, filterMap_cons_toList,
      rowRecord_of_failed header r hr]
    simp

/-- Witness for C1: a row whose website cell is the literal
`"not-a-url"` builds no record. -/
theorem invalid_url_rejects_row_witness :
    exceptValue (buildCompany [(str ("Company"), some (str ("A"))),
        (str ("Company_Website"), some (str ("not-a-url"))),
        (str ("Short_Description"), some (str ("d")))]) = none :=
  invalid_url_rejects_row.1
    [(str ("Company"), some (str ("A"))),
     (str ("Company_Website"), some (str ("not-a-url"))),
     (str ("Short_Description"), some (str ("d")))]
    (str ("Company_Website")) (str ("not-a-url"))
    (Or.inl rfl) (by decide) (by decide) (by decide) (by decide)

theorem getUrl_nan_middle (pre suf : Row) (name m : Str)
    (hp : ∀ q ∈ pre, q.1 ≠ name) (hs : ∀ q ∈ suf, q.1 ≠ name) :
    getUrl (pre ++ (name, (none : Option Str)) :: suf) m = getUrl (pre ++ suf) m := by
  by_cases hm : name = m
  · subst hm
    have hall : ∀ q ∈ pre ++ suf, q.1 ≠ name := by
      intro q hq
      rcases List.mem_append.mp hq with h | h
      exacts [hp q h, hs q h]
    rw [getUrl_of_null _ _ (lookupField_middle pre suf name none hs),
        getUrl_of_absent _ _ (lookupField_absent (pre ++ suf) name hall)]
  · exact getUrl_congr _ _ m (lookupField_middle_other pre suf name m none hm)

theorem getTags_nan_middle (pre suf : Row) (name : Str)
    (hp : ∀ q ∈ pre, q.1 ≠ name) (hs : ∀ q ∈ suf, q.1 ≠ name) :
    getTags (pre ++ (name, (none : Option Str)) :: suf) = getTags (pre ++ suf) := by
  by_cases hm : name = str ("Tags")
  · subst hm
    have hall : ∀ q ∈ pre ++ suf, q.1 ≠ str ("Tags") := by
      intro q hq
      rcases List.mem_append.mp hq with h | h
      exacts [hp q h, hs q h]
    rw [getTags_of_null _ (lookupField_middle pre suf _ none hs),
        getTags_of_absent _ (lookupField_absent (pre ++ suf) _ hall)]
  · exact getTags_congr _ _ (lookupField_middle_other pre suf name _ none hm)

theorem getOptStr_nan_middle (pre suf : Row) (name m : Str)
    (hp : ∀ q ∈ pre, q.1 ≠ name) (hs : ∀ q ∈ suf, q.1 ≠ name) :
    getOptStr (pre ++ (name, (none : Option Str)) :: suf) m = getOptStr (pre ++ suf) m := by
  by_cases hm : name = m
  · subst hm
    have hall : ∀ q ∈ pre ++ suf, q.1 ≠ name := by
      intro q hq
      rcases List.mem_append.mp hq with h | h
      exacts [hp q h, hs q h]
    rw [getOptStr_of_null _ _ (lookupField_middle pre suf name none hs),
        getOptStr_of_absent _ _ (lookupField_absent (pre ++ suf) name hall)]
  · exact getOptStr_congr _ _ m (lookupField_middle_other pre suf name m none hm)

/-- Claim C5: the nan sentinel is equivalent to omission.  First
conjunct: the row loop maps a cell to absent exactly when it lowercases
to `"nan"`.  Second conjunct: for every field name not otherwise bound in
the row, a binding carrying the sentinel-mapped value produces exactly
the same construction outcome — the same record when accepted, and
rejection in the same cases — as a row from which the binding is omitted
entirely; the sentinel is turned into `None` before any field validator
runs. -/
theorem nan_equivalent_to_omitted :
    (∀ v : Str, mapNan v = none ↔ lowerChars v = str ("nan"))
  ∧ (∀ (pre suf : Row) (name v : Str),
        lowerChars v = str ("nan") →
        (∀ q ∈ pre, q.1 ≠ name) → (∀ q ∈ suf, q.1 ≠ name) →
        exceptValue (buildCompany (pre ++ (name, mapNan v) :: suf))
          = exceptValue (buildCompany (pre ++ suf))) := by
  constructor
  · intro v
    unfold mapNan
    by_cases h : lowerChars v = str ("nan") <;> simp [h]
  · intro pre suf name v hv hp hs
    have hmap : mapNan v = none := by simp [mapNan, hv]
    rw [hmap]
    have hall : ∀ q ∈ pre ++ suf, q.1 ≠ name := by
      intro q hq
      rcases List.mem_append.mp hq with h | h
      exacts [hp q h, hs q h]
    by_cases hC : name = str ("Company")
    · subst hC
      have e1 := getStr_of_null (pre ++ (str ("Company"), (none : Option Str)) :: suf)
        (str ("Company")) (lookupField_middle pre suf _ none hs)
      have e2 := getStr_of_absent (pre ++ suf) (str ("Company"))
        (lookupField_absent _ _ hall)
      rw [(exceptValue_eq_none_iff _).mpr (by rw [buildCompany_isOk, e1]; simp [exceptOk]),
          (exceptValue_eq_none_iff _).mpr (by rw [buildCompany_isOk, e2]; simp [exceptOk])]
    · by_cases hS : name = str ("Short_Description")
      · subst hS
        have e1 := getStr_of_null (pre ++ (str ("Short_Description"), (none : Option Str)) :: suf)
          (str ("Short_Description")) (lookupField_middle pre suf _ none hs)
        have e2 := getStr_of_absent (pre ++ suf) (str ("Short_Description"))
          (lookupField_absent _ _ hall)
        rw [(exceptValue_eq_none_iff _).mpr (by rw [buildCompany_isOk, e1]; simp [exceptOk]),
            (exceptValue_eq_none_iff _).mpr (by rw [buildCompany_isOk, e2]; simp [exceptOk])]
      · have g1 := getStr_congr _ _ (str ("Company"))
          (lookupField_middle_other pre suf name _ none hC)
        have g4 := getStr_congr _ _ (str ("Short_Description"))
          (lookupField_middle_other pre suf name _ none hS)
        have g2 := getUrl_nan_middle pre suf name (str ("Company_Website")) hp hs
        have g3 := getUrl_nan_middle pre suf name (str ("YC_Link")) hp hs
        have g7 := getUrl_nan_middle pre suf name (str ("Founder_Link_1")) hp hs
        have g8 := getUrl_nan_middle pre suf name (str ("Founder_Link_2")) hp hs
        have g9 := getUrl_nan_middle pre suf name (str ("Founder_Link_3")) hp hs
        have g5 := getTags_nan_middle pre suf name hp hs
        have g6 := getOptStr_nan_middle pre suf name (str ("Location")) hp hs
        rw [buildCompany_congr _ _ g1 g2 g3 g4 g5 g6 g7 g8 g9]

/-- Witness for C5: placing the sentinel value `"NaN"` in a fresh
`Location` binding leaves the construction outcome of a small concrete
row unchanged. -/
theorem nan_equivalent_to_omitted_witness :
    exceptValue (buildCompany ([(str ("Company"), some (str ("A")))]
        ++ (str ("Location"), mapNan (str ("NaN")))
          :: [(str ("Short_Description"), some (str ("d")))]))
      = exceptValue (buildCompany ([(str ("Company"), some (str ("A")))]
        ++ [(str ("Short_Description"), some (str ("d")))])) :=
  nan_equivalent_to_omitted.2 [(str ("Company"), some (str ("A")))]
    [(str ("Short_Description"), some (str ("d")))] (str ("Location")) (str ("NaN"))
    (by decide) (by decide) (by decide)
